import Mathlib

/-!
Verification of the weekly pairing (matching) engine of the vsilant-bot
repository (src/matcher.py, src/email_sender.py), via a shallow embedding
of its data model and operations in Lean 4.

Conventions of the embedding:
* User identities are natural numbers (Python ints used as Telegram ids).
* Timestamps are integers (seconds since the Unix epoch); a "day count" is
  obtained with floored division by 86400, matching Python timedelta.days.
* Database rows are lists of structures; the SQL upsert and
  insert-or-ignore statements are modelled by list operations that respect
  the unique keys stated in the ON CONFLICT clauses.
* Fallible effects (database writes, chat and email sends) are driven by
  explicit outcome oracles, and exception control flow becomes Except /
  recorded-event values.
-/

/-- A candidate profile row, as projected by the SQL query in
`_fetch_candidates` (src/matcher.py): user_id, username, full_name, email,
segment, affiliation, about, communication_mode.  Nullable text columns are
Options. -/
structure Candidate where
  user_id : Nat
  username : Option String
  full_name : Option String
  email : Option String
  segment : Option String
  affiliation : Option String
  about : Option String
  communication_mode : Option String
deriving DecidableEq, Repr

/-- The compatibility predicate `_are_compatible` of src/matcher.py:
currently permissive, always True. -/
def are_compatible (_A _B : Candidate) : Bool := true

/-- The greedy matching loop of `run_matching_once` (src/matcher.py lines
27-52).  The candidate list is the post-shuffle order; `shuf` stands for the
inner `random.shuffle(options)` (an arbitrary permutation); `pr` is the
`_paired_recently` history predicate on a pair of user ids; `assigned` is
the set of already-assigned user ids, carried as a list. -/
def matchLoop (compat : Candidate → Candidate → Bool) (pr : Nat → Nat → Bool)
    (shuf : List Candidate → List Candidate) :
    List Candidate → List Nat → List (Candidate × Candidate)
  | [], _ => []
  | A :: rest, assigned =>
    if assigned.contains A.user_id then
      matchLoop compat pr shuf rest assigned
    else
      match (shuf (rest.filter
          (fun B => !(assigned.contains B.user_id) && compat A B))).find?
          (fun B => !pr A.user_id B.user_id) with
      | some B =>
          (A, B) :: matchLoop compat pr shuf rest
            (A.user_id :: B.user_id :: assigned)
      | none => matchLoop compat pr shuf rest assigned

/-- All user ids occurring in a list of pairs, in order. -/
def pairIds (ps : List (Candidate × Candidate)) : List Nat :=
  ps.flatMap (fun p => [p.1.user_id, p.2.user_id])

theorem pairIds_cons (p : Candidate × Candidate)
    (ps : List (Candidate × Candidate)) :
    pairIds (p :: ps) = p.1.user_id :: p.2.user_id :: pairIds ps := rfl

section MatchLoopLemmas

variable (compat : Candidate → Candidate → Bool) (pr : Nat → Nat → Bool)
variable (shuf : List Candidate → List Candidate)

theorem matchLoop_cons_assigned {assigned : List Nat} {A : Candidate}
    (rest : List Candidate) (h : assigned.contains A.user_id = true) :
    matchLoop compat pr shuf (A :: rest) assigned =
      matchLoop compat pr shuf rest assigned := by
  rw [matchLoop, if_pos h]

theorem matchLoop_cons_found {assigned : List Nat} {A B : Candidate}
    (rest : List Candidate) (h : ¬ assigned.contains A.user_id = true)
    (hfind : (shuf (rest.filter
        (fun B => !(assigned.contains B.user_id) && compat A B))).find?
        (fun B => !pr A.user_id B.user_id) = some B) :
    matchLoop compat pr shuf (A :: rest) assigned =
      (A, B) :: matchLoop compat pr shuf rest
        (A.user_id :: B.user_id :: assigned) := by
  rw [matchLoop, if_neg h, hfind]

theorem matchLoop_cons_none {assigned : List Nat} {A : Candidate}
    (rest : List Candidate) (h : ¬ assigned.contains A.user_id = true)
    (hfind : (shuf (rest.filter
        (fun B => !(assigned.contains B.user_id) && compat A B))).find?
        (fun B => !pr A.user_id B.user_id) = none) :
    matchLoop compat pr shuf (A :: rest) assigned =
      matchLoop compat pr shuf rest assigned := by
  rw [matchLoop, if_neg h, hfind]

/-- Every id in the output of the matching loop comes from the candidate
list and avoids the already-assigned set. -/
theorem matchLoop_ids_sub (hshuf : ∀ l, (shuf l).Perm l) :
    ∀ (cand : List Candidate) (assigned : List Nat),
      ∀ x ∈ pairIds (matchLoop compat pr shuf cand assigned),
        x ∈ cand.map Candidate.user_id ∧ x ∉ assigned := by
  intro cand
  induction cand with
  | nil => intro assigned x hx; simp [matchLoop, pairIds] at hx
  | cons A rest ih =>
    intro assigned x hx
    by_cases hA : assigned.contains A.user_id = true
    · rw [matchLoop_cons_assigned compat pr shuf rest hA] at hx
      rcases ih assigned x hx with ⟨h1, h2⟩
      exact ⟨by simp [h1], h2⟩
    · cases hfind : (shuf (rest.filter
          (fun B => !(assigned.contains B.user_id) && compat A B))).find?
          (fun B => !pr A.user_id B.user_id) with
      | none =>
        rw [matchLoop_cons_none compat pr shuf rest hA hfind] at hx
        rcases ih assigned x hx with ⟨h1, h2⟩
        exact ⟨by simp [h1], h2⟩
      | some B =>
        rw [matchLoop_cons_found compat pr shuf rest hA hfind] at hx
        have hBmem : B ∈ shuf (rest.filter
            (fun B => !(assigned.contains B.user_id) && compat A B)) :=
          List.mem_of_find?_eq_some hfind
        have hBfilter : B ∈ rest.filter
            (fun B => !(assigned.contains B.user_id) && compat A B) :=
          (hshuf _).mem_iff.mp hBmem
        have hBrest : B ∈ rest := List.mem_of_mem_filter hBfilter
        have hBnot : ¬ assigned.contains B.user_id = true := by
          have h := List.of_mem_filter hBfilter
          intro hc
          rw [hc] at h
          simp at h
        have hAmem : ¬ A.user_id ∈ assigned := fun hc =>
          hA (List.elem_iff.mpr hc)
        have hBmemas : ¬ B.user_id ∈ assigned := fun hc =>
          hBnot (List.elem_iff.mpr hc)
        rw [pairIds_cons] at hx
        simp only [List.mem_cons] at hx
        rcases hx with rfl | rfl | hx
        · exact ⟨by simp, hAmem⟩
        · refine ⟨?_, hBmemas⟩
          simp only [List.map_cons, List.mem_cons]
          exact Or.inr (List.mem_map_of_mem Candidate.user_id hBrest)
        · rcases ih (A.user_id :: B.user_id :: assigned) x hx with ⟨h1, h2⟩
          refine ⟨by simp [h1], fun hc => h2 (by simp [hc])⟩

/-- Nodup of the flattened ids of the matching loop output, given distinct
candidate ids. -/
theorem matchLoop_ids_nodup (hshuf : ∀ l, (shuf l).Perm l) :
    ∀ (cand : List Candidate) (assigned : List Nat),
      (cand.map Candidate.user_id).Nodup →
      (pairIds (matchLoop compat pr shuf cand assigned)).Nodup := by
  intro cand
  induction cand with
  | nil => intro assigned _; simp [matchLoop, pairIds]
  | cons A rest ih =>
    intro assigned hnd
    have hndrest : (rest.map Candidate.user_id).Nodup :=
      (List.nodup_cons.mp (by simpa using hnd)).2
    have hAnotin : A.user_id ∉ rest.map Candidate.user_id :=
      (List.nodup_cons.mp (by simpa using hnd)).1
    by_cases hA : assigned.contains A.user_id = true
    · rw [matchLoop_cons_assigned compat pr shuf rest hA]
      exact ih assigned hndrest
    · cases hfind : (shuf (rest.filter
          (fun B => !(assigned.contains B.user_id) && compat A B))).find?
          (fun B => !pr A.user_id B.user_id) with
      | none =>
        rw [matchLoop_cons_none compat pr shuf rest hA hfind]
        exact ih assigned hndrest
      | some B =>
        rw [matchLoop_cons_found compat pr shuf rest hA hfind]
        have hBmem : B ∈ shuf (rest.filter
            (fun B => !(assigned.contains B.user_id) && compat A B)) :=
          List.mem_of_find?_eq_some hfind
        have hBfilter : B ∈ rest.filter
            (fun B => !(assigned.contains B.user_id) && compat A B) :=
          (hshuf _).mem_iff.mp hBmem
        have hBrest : B ∈ rest := List.mem_of_mem_filter hBfilter
        have hABne : A.user_id ≠ B.user_id := fun h =>
          hAnotin (h ▸ List.mem_map_of_mem Candidate.user_id hBrest)
        have hsub := matchLoop_ids_sub compat pr shuf hshuf rest
          (A.user_id :: B.user_id :: assigned)
        have hrec := ih (A.user_id :: B.user_id :: assigned) hndrest
        rw [pairIds_cons]
        refine List.nodup_cons.mpr ⟨?_, List.nodup_cons.mpr ⟨?_, hrec⟩⟩
        · intro hmem
          simp only [List.mem_cons] at hmem
          rcases hmem with h | h
          · exact hABne h
          · exact (hsub _ h).2 (by simp)
        · intro hmem
          exact (hsub _ hmem).2 (by simp)

end MatchLoopLemmas

/-- C1: for every candidate list (candidates are distinct users, so their
ids are distinct), every compatibility predicate, every history predicate
and any permutation used to shuffle the option lists, the pairs produced by
one run of the matching loop are disjoint: no user id occurs twice in the
flattened output, hence no id is in two pairs and no pair repeats an id. -/
theorem c1_matching_disjoint (compat : Candidate → Candidate → Bool)
    (pr : Nat → Nat → Bool) (shuf : List Candidate → List Candidate)
    (cand : List Candidate)
    (hshuf : ∀ l, (shuf l).Perm l)
    (hnd : (cand.map Candidate.user_id).Nodup) :
    (pairIds (matchLoop compat pr shuf cand [])).Nodup :=
  matchLoop_ids_nodup compat pr shuf hshuf cand [] hnd

/-- A row of the `pairings` table: canonical pair key (user_a, user_b) with
the nullable timestamp `last_matched_at`.  The ON CONFLICT (user_a, user_b)
clause in src/matcher.py line 129 shows (user_a, user_b) is a unique key. -/
structure PairingRow where
  user_a : Nat
  user_b : Nat
  last_matched_at : Option Int
deriving DecidableEq, Repr

/-- A row of the `weekly_matches` table: (week_date, user_a, user_b).  The
week date is a day number (days since the epoch). -/
structure WeeklyRow where
  week_date : Int
  user_a : Nat
  user_b : Nat
deriving DecidableEq, Repr

/-- The database state touched by the matching engine. -/
structure DB where
  pairings : List PairingRow
  weekly_matches : List WeeklyRow
deriving DecidableEq, Repr

/-- The SELECT in `_paired_recently` (src/matcher.py lines 90-95): fetch the
row of `pairings` whose key is (ua, ub). -/
def lookupPairing (db : List PairingRow) (ua ub : Nat) : Option PairingRow :=
  db.find? (fun r => r.user_a == ua && r.user_b == ub)

/-- The history predicate `_paired_recently` (src/matcher.py lines 82-99):
sort the two ids, fetch the pairing row; absence of a row or a null
timestamp gives False; otherwise compare
`(now - last_matched_at).days / 7.0 < float(lookback_weeks)`, where
`.days` is the floored whole-day count of the elapsed time and the
division is exact (modelled over the rationals). -/
def paired_recently (db : List PairingRow) (a b : Nat) (nowSec : Int)
    (lookback_weeks : Nat) : Bool :=
  let ua := min a b
  let ub := max a b
  match lookupPairing db ua ub with
  | none => false
  | some r =>
    match r.last_matched_at with
    | none => false
    | some last =>
      decide ((((nowSec - last).fdiv 86400 : Int) : ℚ) / 7
        < (lookback_weeks : ℚ))

/-- The spec's recently-paired predicate, written from its words: true iff
a Pairing Record exists for the canonical (sorted) pair, carries a recorded
timestamp, and (now - last_matched_at) is strictly less than
lookbackWeeks * 7 days (in seconds). -/
def wasRecentlyPairedSpec (db : List PairingRow) (a b : Nat) (nowSec : Int)
    (lookback_weeks : Nat) : Prop :=
  ∃ r, lookupPairing db (min a b) (max a b) = some r ∧
    ∃ last, r.last_matched_at = some last ∧
      nowSec - last < (lookback_weeks : Int) * 7 * 86400

/-- Floored whole-day count below an integer bound coincides with the raw
second count below the bound in seconds. -/
theorem fdiv_day_lt_iff (d : Int) (w : Nat) :
    ((d.fdiv 86400 : Int) : ℚ) / 7 < (w : ℚ) ↔
      d < (w : Int) * 7 * 86400 := by
  have h7 : (0 : ℚ) < 7 := by norm_num
  rw [div_lt_iff₀ h7]
  have hcast : ((d.fdiv 86400 : Int) : ℚ) < (w : ℚ) * 7 ↔
      d.fdiv 86400 < (w : Int) * 7 := by
    rw [show ((w : ℚ) * 7) = (((w : Int) * 7 : Int) : ℚ) by push_cast; ring]
    exact Int.cast_lt
  rw [hcast]
  rw [Int.fdiv_eq_ediv _ (by norm_num : (0:Int) ≤ 86400)]
  rw [Int.ediv_lt_iff_lt_mul (by norm_num : (0:Int) < 86400)]

/-- C2: the recently-paired predicate returns true iff a pairing record for
the canonical pair exists with a recorded timestamp and the elapsed time is
strictly below lookback_weeks * 7 days; in particular the implementation's
floor-of-whole-days-over-7 comparison coincides with the spec's strict
sub-(weeks*7 days) bound, and absence of a record yields false. -/
theorem c2_paired_recently_spec (db : List PairingRow) (a b : Nat)
    (nowSec : Int) (lookback_weeks : Nat) :
    paired_recently db a b nowSec lookback_weeks = true ↔
      wasRecentlyPairedSpec db a b nowSec lookback_weeks := by
  unfold paired_recently wasRecentlyPairedSpec
  cases hlook : lookupPairing db (min a b) (max a b) with
  | none =>
    simp [hlook]
  | some r =>
    cases hlast : r.last_matched_at with
    | none => simp [hlook, hlast]
    | some last =>
      simp only [hlook, hlast, Option.some.injEq]
      rw [decide_eq_true_iff]
      rw [fdiv_day_lt_iff]
      constructor
      · intro h
        exact ⟨r, rfl, last, hlast, h⟩
      · rintro ⟨r', hr', last', hl', h⟩
        cases hr'
        rw [hlast] at hl'
        cases hl'
        exact h

/-- C4: the recently-paired predicate is symmetric in its two identities:
the lookup canonicalizes the pair by sorting, so the result is independent
of argument order. -/
theorem c4_paired_recently_symm (db : List PairingRow) (a b : Nat)
    (nowSec : Int) (lookback_weeks : Nat) :
    paired_recently db a b nowSec lookback_weeks =
      paired_recently db b a nowSec lookback_weeks := by
  unfold paired_recently
  rw [min_comm, max_comm]

/-- Boolean key match for a pairings row. -/
def pairKey (ua ub : Nat) (r : PairingRow) : Bool :=
  r.user_a == ua && r.user_b == ub

/-- Number of pairings rows with the given canonical key. -/
def pairKeyCount (db : List PairingRow) (ua ub : Nat) : Nat :=
  (db.filter (pairKey ua ub)).length

/-- The upsert of src/matcher.py lines 125-133:
INSERT INTO pairings ... ON CONFLICT (user_a, user_b) DO UPDATE SET
last_matched_at = EXCLUDED.last_matched_at.  Relational semantics over the
unique key (user_a, user_b): overwrite the timestamp of the matching row
when present, otherwise append a new row. -/
def upsertPairing (db : List PairingRow) (ua ub : Nat) (now : Int) :
    List PairingRow :=
  if db.any (pairKey ua ub) then
    db.map (fun r => if pairKey ua ub r then
      { r with last_matched_at := some now } else r)
  else db ++ [⟨ua, ub, some now⟩]

/-- Boolean key match for a weekly_matches row. -/
def weekKeyMatch (wd : Int) (ua ub : Nat) (r : WeeklyRow) : Bool :=
  r.week_date == wd && r.user_a == ua && r.user_b == ub

/-- Number of weekly_matches rows with the given key. -/
def weekKeyCount (db : List WeeklyRow) (wd : Int) (ua ub : Nat) : Nat :=
  (db.filter (weekKeyMatch wd ua ub)).length

/-- Modelled from the spec: the insert of src/matcher.py lines 134-141
(INSERT INTO weekly_matches ... ON CONFLICT DO NOTHING).  The DDL of
weekly_matches is not part of src/; per the spec a Weekly Snapshot Entry is
keyed by (week-start-date, identity-a, identity-b) with one row per pair
per week, so the conflict target is the unique key
(week_date, user_a, user_b): append the row unless it is already there. -/
def insertWeekly (db : List WeeklyRow) (wd : Int) (ua ub : Nat) :
    List WeeklyRow :=
  if db.any (weekKeyMatch wd ua ub) then db
  else db ++ [⟨wd, ua, ub⟩]

/-- A row matching the pair key has exactly the key's components. -/
theorem pairKey_fields {ua ub : Nat} {r : PairingRow}
    (h : pairKey ua ub r = true) : r.user_a = ua ∧ r.user_b = ub := by
  unfold pairKey at h
  simp only [Bool.and_eq_true, beq_iff_eq] at h
  exact h

theorem upsertPairing_any (db : List PairingRow) (ua ub : Nat) (now : Int) :
    (upsertPairing db ua ub now).any (pairKey ua ub) = true := by
  unfold upsertPairing
  by_cases h : db.any (pairKey ua ub) = true
  · rw [if_pos h]
    rcases List.any_eq_true.mp h with ⟨r, hr, hkey⟩
    refine List.any_eq_true.mpr ⟨{ r with last_matched_at := some now }, ?_, ?_⟩
    · refine List.mem_map.mpr ⟨r, hr, ?_⟩
      rw [if_pos hkey]
    · have hf := pairKey_fields hkey
      unfold pairKey
      simp [hf.1, hf.2]
  · rw [if_neg h]
    refine List.any_eq_true.mpr ⟨⟨ua, ub, some now⟩, by simp, ?_⟩
    unfold pairKey
    simp

theorem filter_map_upsert (db : List PairingRow) (ua ub : Nat) (now : Int) :
    (db.map (fun r => if pairKey ua ub r then
      { r with last_matched_at := some now } else r)).filter (pairKey ua ub)
    = (db.filter (pairKey ua ub)).map
        (fun r => { r with last_matched_at := some now }) := by
  induction db with
  | nil => rfl
  | cons r rest ih =>
    by_cases h : pairKey ua ub r = true
    · have hkeep : pairKey ua ub { r with last_matched_at := some now } = true := by
        unfold pairKey at h ⊢
        simpa using h
      simp only [List.map_cons, List.filter_cons, if_pos h, hkeep, ih]
      simp [h]
    · simp only [List.map_cons, List.filter_cons, if_neg h]
      simp only [Bool.not_eq_true] at h
      simp [h, ih]

/-- After an upsert on a table holding at most one row for the key, the
rows with that key are exactly the single freshly-timestamped row. -/
theorem upsertPairing_filter (db : List PairingRow) (ua ub : Nat) (now : Int)
    (hle : pairKeyCount db ua ub ≤ 1) :
    (upsertPairing db ua ub now).filter (pairKey ua ub)
      = [⟨ua, ub, some now⟩] := by
  unfold upsertPairing
  by_cases h : db.any (pairKey ua ub) = true
  · rw [if_pos h, filter_map_upsert]
    rcases List.any_eq_true.mp h with ⟨r, hr, hkey⟩
    have hmem : r ∈ db.filter (pairKey ua ub) := List.mem_filter.mpr ⟨hr, hkey⟩
    have hlen : (db.filter (pairKey ua ub)).length = 1 := by
      have h1 : 1 ≤ (db.filter (pairKey ua ub)).length :=
        List.length_pos.mpr (List.ne_nil_of_mem hmem)
      exact Nat.le_antisymm hle h1
    rcases List.length_eq_one.mp hlen with ⟨r', hr'⟩
    have hr'mem : r' ∈ db.filter (pairKey ua ub) := by
      rw [hr']
      simp
    have hfields := pairKey_fields (List.mem_filter.mp hr'mem).2
    rw [hr']
    simp only [List.map_cons, List.map_nil]
    congr 1
    cases r'
    simp only [PairingRow.mk.injEq]
    exact ⟨hfields.1, hfields.2, trivial⟩
  · rw [if_neg h]
    rw [List.filter_append]
    have hnil : db.filter (pairKey ua ub) = [] := by
      rw [List.filter_eq_nil_iff]
      intro r hr hkey
      exact h (List.any_eq_true.mpr ⟨r, hr, hkey⟩)
    rw [hnil]
    simp only [List.nil_append]
    rw [List.filter_cons]
    have : pairKey ua ub ⟨ua, ub, some now⟩ = true := by
      unfold pairKey
      simp
    simp [this]

/-- Length bookkeeping of the upsert: an update keeps the length, a fresh
insert appends one row. -/
theorem upsertPairing_length (db : List PairingRow) (ua ub : Nat) (now : Int) :
    (upsertPairing db ua ub now).length =
      if db.any (pairKey ua ub) then db.length else db.length + 1 := by
  unfold upsertPairing
  by_cases h : db.any (pairKey ua ub) = true
  · rw [if_pos h, if_pos h, List.length_map]
  · rw [if_neg h, if_neg h, List.length_append, List.length_cons,
      List.length_nil]

/-- The second insert of the same weekly key is a no-op. -/
theorem insertWeekly_idem (db : List WeeklyRow) (wd : Int) (ua ub : Nat) :
    insertWeekly (insertWeekly db wd ua ub) wd ua ub
      = insertWeekly db wd ua ub := by
  unfold insertWeekly
  by_cases h : db.any (weekKeyMatch wd ua ub) = true
  · rw [if_pos h, if_pos h]
  · rw [if_neg h]
    have hkey : weekKeyMatch wd ua ub ⟨wd, ua, ub⟩ = true := by
      unfold weekKeyMatch
      simp
    have hany2 : (db ++ [(⟨wd, ua, ub⟩ : WeeklyRow)]).any
        (weekKeyMatch wd ua ub) = true :=
      List.any_eq_true.mpr ⟨⟨wd, ua, ub⟩, by simp, hkey⟩
    rw [if_pos hany2]

/-- After one insert on a table holding at most one row for the weekly key,
exactly one row with that key is present. -/
theorem insertWeekly_count (db : List WeeklyRow) (wd : Int) (ua ub : Nat)
    (hle : weekKeyCount db wd ua ub ≤ 1) :
    weekKeyCount (insertWeekly db wd ua ub) wd ua ub = 1 := by
  unfold insertWeekly weekKeyCount
  by_cases h : db.any (weekKeyMatch wd ua ub) = true
  · rw [if_pos h]
    rcases List.any_eq_true.mp h with ⟨r, hr, hkey⟩
    have hmem : r ∈ db.filter (weekKeyMatch wd ua ub) :=
      List.mem_filter.mpr ⟨hr, hkey⟩
    have h1 : 1 ≤ (db.filter (weekKeyMatch wd ua ub)).length :=
      List.length_pos.mpr (List.ne_nil_of_mem hmem)
    exact Nat.le_antisymm hle h1
  · rw [if_neg h]
    rw [List.filter_append]
    have hnil : db.filter (weekKeyMatch wd ua ub) = [] := by
      rw [List.filter_eq_nil_iff]
      intro r hr hkey
      exact h (List.any_eq_true.mpr ⟨r, hr, hkey⟩)
    rw [hnil]
    have : weekKeyMatch wd ua ub ⟨wd, ua, ub⟩ = true := by
      unfold weekKeyMatch
      simp
    simp [this]

/-- C6: persistence is idempotent per pair.  Re-upserting the same
canonical pair updates the timestamp of the single existing pairing row
(no duplicate row: the length is unchanged by the second upsert), and a
second weekly snapshot insert for the same (week, pair) key is a no-op,
leaving exactly one snapshot row for that key. -/
theorem c6_persistence_idempotent (db : List PairingRow)
    (wm : List WeeklyRow) (ua ub : Nat) (wd : Int) (t1 t2 : Int)
    (hdb : pairKeyCount db ua ub ≤ 1)
    (hwm : weekKeyCount wm wd ua ub ≤ 1) :
    (upsertPairing (upsertPairing db ua ub t1) ua ub t2).length
        = (upsertPairing db ua ub t1).length
      ∧ (upsertPairing (upsertPairing db ua ub t1) ua ub t2).filter
          (pairKey ua ub) = [⟨ua, ub, some t2⟩]
      ∧ insertWeekly (insertWeekly wm wd ua ub) wd ua ub
          = insertWeekly wm wd ua ub
      ∧ weekKeyCount (insertWeekly wm wd ua ub) wd ua ub = 1 := by
  have hany := upsertPairing_any db ua ub t1
  have hcount1 : pairKeyCount (upsertPairing db ua ub t1) ua ub ≤ 1 := by
    unfold pairKeyCount
    rw [upsertPairing_filter db ua ub t1 hdb]
    simp
  refine ⟨?_, ?_, insertWeekly_idem wm wd ua ub,
    insertWeekly_count wm wd ua ub hwm⟩
  · rw [upsertPairing_length, if_pos hany]
  · exact upsertPairing_filter _ ua ub t2 hcount1

/-- Witness for C6 at a concrete database state. -/
theorem c6_persistence_idempotent_witness :
    (upsertPairing (upsertPairing [⟨1, 2, some 5⟩] 1 2 10) 1 2 20).length
        = (upsertPairing [⟨1, 2, some 5⟩] 1 2 10).length
      ∧ (upsertPairing (upsertPairing [⟨1, 2, some 5⟩] 1 2 10) 1 2 20).filter
          (pairKey 1 2) = [⟨1, 2, some 20⟩]
      ∧ insertWeekly (insertWeekly [] 100 1 2) 100 1 2
          = insertWeekly [] 100 1 2
      ∧ weekKeyCount (insertWeekly [] 100 1 2) 100 1 2 = 1 :=
  c6_persistence_idempotent [⟨1, 2, some 5⟩] [] 1 2 100 10 20
    (by decide) (by decide)

/-- The body of `_persist_pairs` (src/matcher.py lines 119-145) run inside
one transaction.  `failAt` is the write-outcome oracle: `failAt k = some e`
means the k-th execute statement of the batch raises database error `e`
(writes are counted from 0, two per pair: the pairings upsert, then the
weekly_matches insert).  `tr` is the in-transaction state.  The first
failing write aborts the loop with its error. -/
def persistLoop (failAt : Nat → Option String) (now : Int) (wd : Int) :
    List (Candidate × Candidate) → Nat → DB → Except String DB
  | [], _, tr => Except.ok tr
  | (A, B) :: rest, k, tr =>
    let ua := min A.user_id B.user_id
    let ub := max A.user_id B.user_id
    match failAt k with
    | some e => Except.error e
    | none =>
      let tr1 : DB := { tr with pairings := upsertPairing tr.pairings ua ub now }
      match failAt (k + 1) with
      | some e => Except.error e
      | none =>
        let tr2 : DB := { tr1 with
          weekly_matches := insertWeekly tr1.weekly_matches wd ua ub }
        persistLoop failAt now wd rest (k + 2) tr2

/-- The transaction of `_persist_pairs`: run all writes; an error leaves
the committed database untouched (rollback) and propagates. -/
def persist_pairs (failAt : Nat → Option String) (now : Int) (wd : Int)
    (db : DB) (pairs : List (Candidate × Candidate)) : Except String DB :=
  persistLoop failAt now wd pairs 0 db

/-- The committed database state after `_persist_pairs`: the transaction
result on commit, the unchanged input database on rollback. -/
def persistCommitted (failAt : Nat → Option String) (now : Int) (wd : Int)
    (db : DB) (pairs : List (Candidate × Candidate)) : DB :=
  match persist_pairs failAt now wd db pairs with
  | Except.ok db2 => db2
  | Except.error _ => db

/-- If the first failing write of the batch is within range, the persist
loop stops with exactly that error. -/
theorem persistLoop_error (failAt : Nat → Option String) (now wd : Int)
    (e : String) :
    ∀ (pairs : List (Candidate × Candidate)) (i k : Nat) (tr : DB),
      i ≤ k → k < i + 2 * pairs.length → failAt k = some e →
      (∀ j, i ≤ j → j < k → failAt j = none) →
      persistLoop failAt now wd pairs i tr = Except.error e := by
  intro pairs
  induction pairs with
  | nil =>
    intro i k tr hik hk _ _
    simp only [List.length_nil, Nat.mul_zero, Nat.add_zero] at hk
    omega
  | cons p rest ih =>
    intro i k tr hik hk hfail hprev
    obtain ⟨A, B⟩ := p
    rw [persistLoop]
    by_cases h0 : k = i
    · subst h0
      rw [hfail]
    · have h1 : failAt i = none := hprev i (Nat.le_refl i) (by omega)
      rw [h1]
      by_cases h2 : k = i + 1
      · subst h2
        rw [hfail]
      · have h3 : failAt (i + 1) = none := hprev (i + 1) (by omega) (by omega)
        rw [h3]
        refine ih (i + 2) k _ (by omega) ?_ hfail ?_
        · simp only [List.length_cons] at hk
          omega
        · intro j hj1 hj2
          exact hprev j (by omega) hj2

/-- C3: if any single database write in the persistence batch fails (the
first failure being write k with error e), the whole call reports that
error to the caller and the committed database state is the unchanged
input: no pairing row and no weekly snapshot row of this run is persisted. -/
theorem c3_persist_rollback (failAt : Nat → Option String) (now wd : Int)
    (db : DB) (pairs : List (Candidate × Candidate)) (k : Nat) (e : String)
    (hk : k < 2 * pairs.length) (hfail : failAt k = some e)
    (hprev : ∀ j, j < k → failAt j = none) :
    persist_pairs failAt now wd db pairs = Except.error e
      ∧ persistCommitted failAt now wd db pairs = db := by
  have herr : persist_pairs failAt now wd db pairs = Except.error e :=
    persistLoop_error failAt now wd e pairs 0 k db (Nat.zero_le k)
      (by omega) hfail (fun j _ hj => hprev j hj)
  refine ⟨herr, ?_⟩
  unfold persistCommitted
  rw [herr]

/-- Witness for C3: a batch of one pair whose second write fails. -/
theorem c3_persist_rollback_witness :
    persist_pairs (fun k => if k = 1 then some "db down" else none) 50 100
        ⟨[], []⟩ [(⟨1, none, none, none, none, none, none, none⟩,
          ⟨2, none, none, none, none, none, none, none⟩)]
        = Except.error "db down"
      ∧ persistCommitted (fun k => if k = 1 then some "db down" else none)
          50 100 ⟨[], []⟩ [(⟨1, none, none, none, none, none, none, none⟩,
            ⟨2, none, none, none, none, none, none, none⟩)] = ⟨[], []⟩ :=
  c3_persist_rollback (fun k => if k = 1 then some "db down" else none)
    50 100 ⟨[], []⟩ _ 1 "db down" (by decide) (by decide)
    (by decide)

/-- A row of the `email_templates` table as used by `get_email_template`
and `send_templated_email` (src/email_sender.py lines 78-108): subject,
html_body and a nullable text_body, each holding placeholders. -/
structure EmailTemplate where
  subject : String
  html_body : String
  text_body : Option String
deriving DecidableEq, Repr

/-- The renderer `render_template` (src/email_sender.py lines 66-75):
replace each \x7b\x7bkey\x7d\x7d placeholder by its value, in the order the
variables are listed; unresolved placeholders stay verbatim. -/
def render_template (template : String) (vars : List (String × String)) :
    String :=
  vars.foldl
    (fun result kv =>
      result.replace ("\x7b\x7b" ++ kv.1 ++ "\x7d\x7d") kv.2) template

/-- The delivery outcome of `send_email` (src/email_sender.py lines 22-63):
`_send_email_sync` catches every exception and reports success as a Bool,
so the call never raises; `smtpOk` is the outcome of the SMTP session. -/
def send_email (smtpOk : Bool) : Bool := smtpOk

/-- The outcome of `send_templated_email` (src/email_sender.py lines
90-108): False when the named template is absent from the store; otherwise
the outcome of the `send_email` delivery of the rendered message. -/
def send_templated_email (templates : String → Option EmailTemplate)
    (smtpOk : Bool) (template_name : String) : Bool :=
  match templates template_name with
  | none => false
  | some _ => send_email smtpOk

/-- Python truthiness of a nullable string column: None and the empty
string are falsy. -/
def truthyStr : Option String → Bool
  | none => false
  | some s => !s.isEmpty

/-- Resolution of the communication-channel preference in `_notify_pairs`
(src/matcher.py lines 178 and 241): `A.get('communication_mode') or
'email+telegram'`, i.e. the stored mode unless it is null or empty, in
which case the default "email+telegram" (both channels). -/
def commMode (X : Candidate) : String :=
  match X.communication_mode with
  | none => "email+telegram"
  | some s => if s.isEmpty then "email+telegram" else s

/-- One notification attempt recorded by the dispatcher, tagged with the
recipient's user id. -/
inductive NotifyEvent where
  | chat (uid : Nat)
  | templatedEmail (uid : Nat) (addr : String)
  | fallbackEmail (uid : Nat) (addr : String)
deriving DecidableEq, Repr

/-- The recipient a notification attempt belongs to. -/
def NotifyEvent.owner : NotifyEvent → Nat
  | NotifyEvent.chat uid => uid
  | NotifyEvent.templatedEmail uid _ => uid
  | NotifyEvent.fallbackEmail uid _ => uid

/-- Outcome oracle for the sends of `_notify_pairs`, per recipient user id:
whether `bot.send_message` raises, whether the `send_templated_email` call
raises (e.g. a database error fetching the template), and the SMTP outcome
of the templated delivery attempt. -/
structure NotifyOracle where
  chatThrows : Nat → Bool
  templThrows : Nat → Bool
  smtpOk : Nat → Bool

/-- The per-recipient half of an iteration of `_notify_pairs`
(src/matcher.py lines 176-238 for member A of a pair, mirrored at lines
240-301 for member B); `X` is the recipient, `Y` the counterpart whose
profile fills the message.  Returns the send attempts made:
* chat attempt when the mode includes Telegram; an exception is caught and
  the email branch still runs;
* templated email attempt when the mode includes email and an address is
  on file; when that call raises, the exception is caught and nothing else
  is sent; when it returns False (missing template or failed delivery),
  the hard-coded fallback message is sent. -/
def notifyOne (templates : String → Option EmailTemplate) (o : NotifyOracle)
    (X _Y : Candidate) : List NotifyEvent :=
  let mode := commMode X
  let chatEvs : List NotifyEvent :=
    if mode == "telegram_only" || mode == "email+telegram" then
      [NotifyEvent.chat X.user_id]
    else []
  let emailEvs : List NotifyEvent :=
    if (mode == "email_only" || mode == "email+telegram")
        && truthyStr X.email then
      let addr := X.email.getD ""
      if o.templThrows X.user_id then
        [NotifyEvent.templatedEmail X.user_id addr]
      else if send_templated_email templates (o.smtpOk X.user_id)
          "random_coffee" then
        [NotifyEvent.templatedEmail X.user_id addr]
      else
        [NotifyEvent.templatedEmail X.user_id addr,
         NotifyEvent.fallbackEmail X.user_id addr]
    else []
  chatEvs ++ emailEvs

/-- The full dispatcher `_notify_pairs`: for each pair, first member A then
member B is processed as a recipient. -/
def notifyPairs (templates : String → Option EmailTemplate)
    (o : NotifyOracle) (pairs : List (Candidate × Candidate)) :
    List NotifyEvent :=
  pairs.flatMap (fun p =>
    notifyOne templates o p.1 p.2 ++ notifyOne templates o p.2 p.1)

/-- Send attempts of a given recipient, in order. -/
def ownedBy (uid : Nat) (evs : List NotifyEvent) : List NotifyEvent :=
  evs.filter (fun e => e.owner == uid)

/-- The result of one engine run: the returned pair count, the committed
database and the notification attempts. -/
structure RunResult where
  count : Nat
  db : DB
  events : List NotifyEvent
deriving DecidableEq, Repr

/-- The engine `run_matching_once` (src/matcher.py lines 14-59) after the
candidate fetch and outer shuffle: build pairs with the matching loop; with
no pairs return 0 at once (no write, no send); otherwise persist — a
persistence error propagates — then notify and return the pair count. -/
def run_matching_once (compat : Candidate → Candidate → Bool)
    (pr : Nat → Nat → Bool) (shuf : List Candidate → List Candidate)
    (cand : List Candidate) (db : DB) (failAt : Nat → Option String)
    (now wd : Int) (templates : String → Option EmailTemplate)
    (o : NotifyOracle) : Except String RunResult :=
  let pairs := matchLoop compat pr shuf cand []
  if pairs.isEmpty then Except.ok ⟨0, db, []⟩
  else
    match persist_pairs failAt now wd db pairs with
    | Except.error e => Except.error e
    | Except.ok db2 =>
        Except.ok ⟨pairs.length, db2, notifyPairs templates o pairs⟩

theorem notifyOne_owner (templates : String → Option EmailTemplate)
    (o : NotifyOracle) (X Y : Candidate) :
    ∀ e ∈ notifyOne templates o X Y, e.owner = X.user_id := by
  intro e he
  simp only [notifyOne, List.mem_append] at he
  rcases he with h | h
  · by_cases hc : (commMode X == "telegram_only"
        || commMode X == "email+telegram") = true
    · rw [if_pos hc] at h
      simp only [List.mem_singleton] at h
      subst h
      rfl
    · rw [if_neg hc] at h
      simp at h
  · by_cases hc : ((commMode X == "email_only"
        || commMode X == "email+telegram") && truthyStr X.email) = true
    · rw [if_pos hc] at h
      by_cases ht : o.templThrows X.user_id = true
      · rw [if_pos ht] at h
        simp only [List.mem_singleton] at h
        subst h
        rfl
      · rw [if_neg ht] at h
        by_cases hs : send_templated_email templates (o.smtpOk X.user_id)
            "random_coffee" = true
        · rw [if_pos hs] at h
          simp only [List.mem_singleton] at h
          subst h
          rfl
        · rw [if_neg hs] at h
          simp only [List.mem_cons, List.mem_singleton,
            List.not_mem_nil, or_false] at h
          rcases h with h | h <;> (subst h; rfl)
    · rw [if_neg hc] at h
      simp at h

/-- The attempts for a recipient depend only on the oracle's outcomes at
that recipient's user id. -/
theorem notifyOne_oracle_congr (templates : String → Option EmailTemplate)
    (o o2 : NotifyOracle) (X Y : Candidate)
    (h1 : o.templThrows X.user_id = o2.templThrows X.user_id)
    (h2 : o.smtpOk X.user_id = o2.smtpOk X.user_id) :
    notifyOne templates o X Y = notifyOne templates o2 X Y := by
  simp only [notifyOne, h1, h2]

theorem ownedBy_eq_nil (uid : Nat) (evs : List NotifyEvent)
    (h : ∀ e ∈ evs, e.owner ≠ uid) : ownedBy uid evs = [] := by
  unfold ownedBy
  rw [List.filter_eq_nil_iff]
  intro e he
  simp only [beq_iff_eq]
  exact h e he

theorem ownedBy_append (uid : Nat) (l1 l2 : List NotifyEvent) :
    ownedBy uid (l1 ++ l2) = ownedBy uid l1 ++ ownedBy uid l2 :=
  List.filter_append l1 l2

/-- C5: notification failures are isolated.  First conjunct: for any two
outcome oracles that agree on recipient u (other recipients' chat or email
sends may fail arbitrarily differently, and chat outcomes affect nothing),
the attempts delivered to u in a batch are identical — every remaining
recipient and channel is still processed.  Second conjunct: whenever
persistence succeeds, the run returns the pair count with the committed
database for this very oracle, even one where every send fails — no
notification failure propagates. -/
theorem c5_notification_isolation (templates : String → Option EmailTemplate)
    (o o2 : NotifyOracle) (u : Nat)
    (h1 : o.templThrows u = o2.templThrows u)
    (h2 : o.smtpOk u = o2.smtpOk u) :
    (∀ pairs, ownedBy u (notifyPairs templates o pairs)
       = ownedBy u (notifyPairs templates o2 pairs))
    ∧ (∀ (compat : Candidate → Candidate → Bool) (pr : Nat → Nat → Bool)
         (shuf : List Candidate → List Candidate) (cand : List Candidate)
         (db : DB) (failAt : Nat → Option String) (now wd : Int) (db2 : DB),
         persist_pairs failAt now wd db (matchLoop compat pr shuf cand [])
             = Except.ok db2 →
         run_matching_once compat pr shuf cand db failAt now wd templates o
           = Except.ok ⟨(matchLoop compat pr shuf cand []).length, db2,
               notifyPairs templates o (matchLoop compat pr shuf cand [])⟩) := by
  constructor
  · intro pairs
    induction pairs with
    | nil => rfl
    | cons p rest ih =>
      obtain ⟨A, B⟩ := p
      simp only [notifyPairs, List.flatMap_cons] at ih ⊢
      rw [ownedBy_append, ownedBy_append, ownedBy_append, ownedBy_append,
        ih]
      congr 2
      · by_cases hx : A.user_id = u
        · rw [notifyOne_oracle_congr templates o o2 A B (hx ▸ h1) (hx ▸ h2)]
        · rw [ownedBy_eq_nil u _ (fun e he =>
              (notifyOne_owner templates o A B e he) ▸ hx),
            ownedBy_eq_nil u _ (fun e he =>
              (notifyOne_owner templates o2 A B e he) ▸ hx)]
      · by_cases hx : B.user_id = u
        · rw [notifyOne_oracle_congr templates o o2 B A (hx ▸ h1) (hx ▸ h2)]
        · rw [ownedBy_eq_nil u _ (fun e he =>
              (notifyOne_owner templates o B A e he) ▸ hx),
            ownedBy_eq_nil u _ (fun e he =>
              (notifyOne_owner templates o2 B A e he) ▸ hx)]
  · intro compat pr shuf cand db failAt now wd db2 hok
    unfold run_matching_once
    by_cases hP : (matchLoop compat pr shuf cand []).isEmpty = true
    · rw [if_pos hP]
      have hnil : matchLoop compat pr shuf cand [] = [] :=
        List.isEmpty_iff.mp hP
      rw [hnil] at hok ⊢
      have hdb : db = db2 := by
        unfold persist_pairs persistLoop at hok
        exact (Except.ok.injEq _ _).mp hok
      rw [← hdb]
      rfl
    · rw [if_neg hP, hok]

/-- Witness for C5: two oracles agreeing on recipient 1 (the second one
failing every send of every other recipient), one concrete pair, and a
successful empty-batch persistence. -/
theorem c5_notification_isolation_witness :
    (ownedBy 1 (notifyPairs (fun _ => none)
        ⟨fun _ => false, fun _ => false, fun _ => true⟩
        [(⟨1, none, none, some "a@x", none, none, none, none⟩,
          ⟨2, none, none, some "b@x", none, none, none, none⟩)])
      = ownedBy 1 (notifyPairs (fun _ => none)
        ⟨fun _ => true, fun u => u ≠ 1, fun u => decide (u = 1)⟩
        [(⟨1, none, none, some "a@x", none, none, none, none⟩,
          ⟨2, none, none, some "b@x", none, none, none, none⟩)]))
    ∧ run_matching_once (fun _ _ => true) (fun _ _ => true) id []
        ⟨[], []⟩ (fun _ => none) 0 0 (fun _ => none)
        ⟨fun _ => false, fun _ => false, fun _ => true⟩
      = Except.ok ⟨0, ⟨[], []⟩, []⟩ := by
  have h := c5_notification_isolation (fun _ => none)
    ⟨fun _ => false, fun _ => false, fun _ => true⟩
    ⟨fun _ => true, fun u => u ≠ 1, fun u => decide (u = 1)⟩ 1
    (by decide) (by decide)
  exact ⟨h.1 _, h.2 (fun _ _ => true) (fun _ _ => true) id []
    ⟨[], []⟩ (fun _ => none) 0 0 ⟨[], []⟩ rfl⟩

/-- C7 as stated is false on the code: `send_templated_email` returns False
both when the template is missing and when the templated SMTP delivery
fails (`_send_email_sync` catches the exception and returns False), and
`_notify_pairs` sends the fallback message whenever the call returned
False.  Concretely: the template store holds "random_coffee", the SMTP
delivery of the templated message fails, and the dispatcher still performs
a second, fallback-rendered send to the same recipient. -/
theorem c7_fallback_counterexample :
    ((fun n => if n == "random_coffee"
        then some (⟨"s", "h", none⟩ : EmailTemplate) else none)
      "random_coffee").isSome = true
    ∧ NotifyEvent.fallbackEmail 1 "a@x" ∈ notifyOne
        (fun n => if n == "random_coffee"
          then some (⟨"s", "h", none⟩ : EmailTemplate) else none)
        ⟨fun _ => false, fun _ => false, fun _ => false⟩
        ⟨1, none, none, some "a@x", none, none, none, some "email_only"⟩
        ⟨2, none, none, none, none, none, none, none⟩ := by
  constructor
  · rfl
  · decide

/-- C7 amended: for a recipient routed to the email channel with an address
on file, the fallback-rendered send is attempted exactly when the
`send_templated_email` call returns False without raising — that is, when
the named template is missing or the templated delivery itself reported
failure; an exception thrown by the call is caught and triggers no
fallback. -/
theorem c7_fallback_exactly_on_false
    (templates : String → Option EmailTemplate) (o : NotifyOracle)
    (X Y : Candidate)
    (hmode : commMode X = "email_only" ∨ commMode X = "email+telegram")
    (hemail : truthyStr X.email = true) :
    NotifyEvent.fallbackEmail X.user_id (X.email.getD "")
        ∈ notifyOne templates o X Y
      ↔ o.templThrows X.user_id = false
        ∧ send_templated_email templates (o.smtpOk X.user_id)
            "random_coffee" = false := by
  have hguard : ((commMode X == "email_only"
      || commMode X == "email+telegram") && truthyStr X.email) = true := by
    rcases hmode with h | h <;> rw [h] <;> rw [hemail] <;> rfl
  simp only [notifyOne, hguard, if_true, List.mem_append]
  by_cases ht : o.templThrows X.user_id = true
  · rw [if_pos ht]
    constructor
    · intro h
      exfalso
      rcases h with h | h
      · by_cases hc : (commMode X == "telegram_only"
            || commMode X == "email+telegram") = true
        · rw [if_pos hc] at h
          simp at h
        · rw [if_neg hc] at h
          simp at h
      · simp at h
    · intro h
      rw [ht] at h
      exact absurd h.1 (by simp)
  · rw [if_neg ht]
    have ht' : o.templThrows X.user_id = false := by
      simpa using ht
    by_cases hs : send_templated_email templates (o.smtpOk X.user_id)
        "random_coffee" = true
    · rw [if_pos hs]
      constructor
      · intro h
        exfalso
        rcases h with h | h
        · by_cases hc : (commMode X == "telegram_only"
              || commMode X == "email+telegram") = true
          · rw [if_pos hc] at h
            simp at h
          · rw [if_neg hc] at h
            simp at h
        · simp at h
      · intro h
        rw [hs] at h
        exact absurd h.2 (by simp)
    · rw [if_neg hs]
      have hs' : send_templated_email templates (o.smtpOk X.user_id)
          "random_coffee" = false := by
        simpa using hs
      constructor
      · intro _
        exact ⟨ht', hs'⟩
      · intro _
        right
        simp

/-- C8: channel-preference routing.  (a) a recipient with preference
email_only and no (truthy) email address on file gets zero notification
attempts on any channel; (b) a recipient with preference telegram_only
gets exactly the one chat attempt and never an email-send attempt; (c) a
recipient with no preference set is routed exactly as one whose preference
is "email+telegram" (both channels). -/
theorem c8_channel_preference_routing
    (templates : String → Option EmailTemplate) (o : NotifyOracle)
    (X Y : Candidate) :
    (X.communication_mode = some "email_only" → truthyStr X.email = false →
       notifyOne templates o X Y = [])
    ∧ (X.communication_mode = some "telegram_only" →
       notifyOne templates o X Y = [NotifyEvent.chat X.user_id])
    ∧ (X.communication_mode = none →
       notifyOne templates o X Y = notifyOne templates o
         { X with communication_mode := some "email+telegram" } Y) := by
  refine ⟨?_, ?_, ?_⟩
  · intro hmode hemail
    have hm : commMode X = "email_only" := by
      unfold commMode
      rw [hmode]
      rfl
    simp only [notifyOne, hm, hemail]
    rfl
  · intro hmode
    have hm : commMode X = "telegram_only" := by
      unfold commMode
      rw [hmode]
      rfl
    simp only [notifyOne, hm]
    rfl
  · intro hmode
    have hm : commMode X = "email+telegram" := by
      unfold commMode
      rw [hmode]
    have hm2 : commMode
        { X with communication_mode := some "email+telegram" }
        = "email+telegram" := rfl
    simp only [notifyOne, hm, hm2]

/-- Witness for C8 at three concrete recipients. -/
theorem c8_channel_preference_routing_witness :
    (notifyOne (fun _ => none)
        ⟨fun _ => false, fun _ => false, fun _ => true⟩
        ⟨1, none, none, none, none, none, none, some "email_only"⟩
        ⟨2, none, none, none, none, none, none, none⟩ = [])
    ∧ (notifyOne (fun _ => none)
        ⟨fun _ => false, fun _ => false, fun _ => true⟩
        ⟨3, none, none, some "c@x", none, none, none, some "telegram_only"⟩
        ⟨4, none, none, none, none, none, none, none⟩
          = [NotifyEvent.chat 3])
    ∧ (notifyOne (fun _ => none)
        ⟨fun _ => false, fun _ => false, fun _ => true⟩
        ⟨5, none, none, some "e@x", none, none, none, none⟩
        ⟨6, none, none, none, none, none, none, none⟩
          = notifyOne (fun _ => none)
              ⟨fun _ => false, fun _ => false, fun _ => true⟩
              ⟨5, none, none, some "e@x", none, none, none,
                some "email+telegram"⟩
              ⟨6, none, none, none, none, none, none, none⟩) := by
  refine ⟨?_, ?_, ?_⟩
  · exact (c8_channel_preference_routing (fun _ => none)
      ⟨fun _ => false, fun _ => false, fun _ => true⟩
      ⟨1, none, none, none, none, none, none, some "email_only"⟩
      ⟨2, none, none, none, none, none, none, none⟩).1 rfl rfl
  · exact (c8_channel_preference_routing (fun _ => none)
      ⟨fun _ => false, fun _ => false, fun _ => true⟩
      ⟨3, none, none, some "c@x", none, none, none, some "telegram_only"⟩
      ⟨4, none, none, none, none, none, none, none⟩).2.1 rfl
  · exact (c8_channel_preference_routing (fun _ => none)
      ⟨fun _ => false, fun _ => false, fun _ => true⟩
      ⟨5, none, none, some "e@x", none, none, none, none⟩
      ⟨6, none, none, none, none, none, none, none⟩).2.2 rfl

/-- C10: when the matching loop forms no pairs (empty pool, singleton
pool, everyone recently paired, ...), the run returns 0 at once with the
database untouched and an empty list of notification attempts: no
persistence write and no chat or email send happens. -/
theorem c10_no_pairs_no_effects (compat : Candidate → Candidate → Bool)
    (pr : Nat → Nat → Bool) (shuf : List Candidate → List Candidate)
    (cand : List Candidate) (db : DB) (failAt : Nat → Option String)
    (now wd : Int) (templates : String → Option EmailTemplate)
    (o : NotifyOracle)
    (h : matchLoop compat pr shuf cand [] = []) :
    run_matching_once compat pr shuf cand db failAt now wd templates o
      = Except.ok ⟨0, db, []⟩ := by
  unfold run_matching_once
  rw [h]
  rfl

/-- Witness for C10: the empty candidate pool. -/
theorem c10_no_pairs_no_effects_witness :
    run_matching_once are_compatible (fun _ _ => false) id []
        ⟨[], []⟩ (fun _ => none) 0 0 (fun _ => none)
        ⟨fun _ => false, fun _ => false, fun _ => true⟩
      = Except.ok ⟨0, ⟨[], []⟩, []⟩ :=
  c10_no_pairs_no_effects are_compatible (fun _ _ => false) id []
    ⟨[], []⟩ (fun _ => none) 0 0 (fun _ => none)
    ⟨fun _ => false, fun _ => false, fun _ => true⟩ rfl

/-- A Python datetime in some fixed zone, reduced to what the week-key
computation reads: the day number since the epoch (1970-01-01, a Thursday,
so Python weekday() of day d is (d + 3) mod 7 with Monday = 0) and the
minute of that day. -/
structure LocalDT where
  day : Int
  minute : Int
deriving DecidableEq, Repr

/-- Minutes since the epoch of a local datetime. -/
def toMinutes (d : LocalDT) : Int := d.day * 1440 + d.minute

/-- Local datetime of an instant in minutes since the epoch. -/
def ofMinutes (m : Int) : LocalDT := ⟨m.fdiv 1440, m.emod 1440⟩

/-- `now.astimezone(tz)` of src/matcher.py line 116: shift the UTC instant
by the zone's offset (in minutes) at that instant and read it as a local
datetime. -/
def astimezone (utcMin offMin : Int) : LocalDT := ofMinutes (utcMin + offMin)

/-- Python `weekday()` of a local datetime: Monday = 0. -/
def pyWeekday (d : LocalDT) : Int := (d.day + 3).emod 7

/-- `_monday_of_week` (src/matcher.py lines 102-105): subtract weekday()
days from the local datetime, then zero out the time of day. -/
def monday_of_week (dt_local : LocalDT) : LocalDT :=
  ⟨(ofMinutes (toMinutes dt_local - pyWeekday dt_local * 1440)).day, 0⟩

/-- The week key written by `_persist_pairs` (src/matcher.py line 117):
`_monday_of_week(now.astimezone(tz)).date()`, as a day number. -/
def weekMondayCode (utcMin offMin : Int) : Int :=
  (monday_of_week (astimezone utcMin offMin)).day

/-- Modelled from the spec: the Monday of the current week computed in the
configured local time zone — the local date minus the local weekday
offset, truncated to local midnight. -/
def weekMondaySpec (utcMin offMin : Int) : Int :=
  ((utcMin + offMin).fdiv 1440) - (((utcMin + offMin).fdiv 1440) + 3).emod 7

/-- C9: the persisted week key is the Monday of the week of the LOCAL
datetime — the local date minus the local weekday, at local midnight —
for every run instant and zone offset; and it differs from the UTC week's
Monday on a concrete run whose UTC instant falls in the preceding calendar
week (Sunday 23:00 UTC with a +2h zone is local Monday 01:00). -/
theorem c9_week_key_local_monday :
    (∀ utcMin offMin : Int,
      weekMondayCode utcMin offMin = weekMondaySpec utcMin offMin)
    ∧ (∃ utcMin offMin : Int,
      weekMondayCode utcMin offMin ≠ weekMondayCode utcMin 0) := by
  constructor
  · intro u o
    unfold weekMondayCode weekMondaySpec monday_of_week astimezone
      ofMinutes toMinutes pyWeekday
    have h1440 : (0 : Int) < 1440 := by norm_num
    set L : Int := u + o with hL
    set d : Int := L.fdiv 1440 with hd
    set m : Int := L.emod 1440 with hm
    set w : Int := (d + 3).emod 7 with hw
    have hm0 : 0 ≤ m := Int.emod_nonneg L (by norm_num)
    have hm1 : m < 1440 := Int.emod_lt_of_pos L h1440
    have harith : d * 1440 + m - w * 1440 = m + (d - w) * 1440 := by ring
    rw [harith]
    rw [Int.fdiv_eq_ediv _ (by norm_num : (0:Int) ≤ 1440)]
    rw [Int.add_mul_ediv_right m (d - w) (by norm_num : (1440:Int) ≠ 0)]
    rw [Int.ediv_eq_zero_of_lt hm0 hm1]
    ring
  · refine ⟨3 * 1440 + 23 * 60, 120, ?_⟩
    decide

/-- Witness for C1: a concrete two-candidate pool, identity shuffle, empty
history. -/
theorem c1_matching_disjoint_witness :
    (pairIds (matchLoop are_compatible (fun _ _ => false) id
      [⟨1, none, none, none, none, none, none, none⟩,
       ⟨2, none, none, none, none, none, none, none⟩] [])).Nodup :=
  c1_matching_disjoint are_compatible (fun _ _ => false) id
    [⟨1, none, none, none, none, none, none, none⟩,
     ⟨2, none, none, none, none, none, none, none⟩]
    (fun l => List.Perm.refl l) (by decide)

/-- Witness for the amended C7: email-only recipient with an address, a
present template and a failed templated delivery. -/
theorem c7_fallback_exactly_on_false_witness :
    NotifyEvent.fallbackEmail 1
        ((⟨1, none, none, some "a@x", none, none, none,
          some "email_only"⟩ : Candidate).email.getD "")
      ∈ notifyOne
        (fun n => if n == "random_coffee"
          then some (⟨"s", "h", none⟩ : EmailTemplate) else none)
        ⟨fun _ => false, fun _ => false, fun _ => false⟩
        ⟨1, none, none, some "a@x", none, none, none, some "email_only"⟩
        ⟨2, none, none, none, none, none, none, none⟩
    ↔ (⟨fun _ => false, fun _ => false,
          fun _ => false⟩ : NotifyOracle).templThrows 1 = false
      ∧ send_templated_email
          (fun n => if n == "random_coffee"
            then some (⟨"s", "h", none⟩ : EmailTemplate) else none)
          ((⟨fun _ => false, fun _ => false,
            fun _ => false⟩ : NotifyOracle).smtpOk 1)
          "random_coffee" = false :=
  c7_fallback_exactly_on_false
    (fun n => if n == "random_coffee"
      then some (⟨"s", "h", none⟩ : EmailTemplate) else none)
    ⟨fun _ => false, fun _ => false, fun _ => false⟩
    ⟨1, none, none, some "a@x", none, none, none, some "email_only"⟩
    ⟨2, none, none, none, none, none, none, none⟩
    (Or.inl (by decide)) (by decide)
